import Mathlib

/-!
Verification development for the browser-side viewer of a turn-based
multi-agent simulation (src/Graphics/script.js).

The JavaScript source is shallowly embedded as pure Lean functions:

* the global `state` object, the control-bar DOM state, and the rendered
  views (grid cells, item tokens, event log lines) become fields of the
  `UIState` structure;
* DOM elements that represent agents become abstract element identifiers
  (`Nat`), allocated by a counter (`RenderState.nextId`); attachment to the
  scene container (`mapGrid`) is tracked by the `attached` list;
* JavaScript objects used as dictionaries become association lists, looked
  up with `alookup` (first match wins, mirroring unique JS object keys;
  `gridLayout`, where later writes win, is looked up through a reversed
  entry list);
* network calls (`fetch`) become explicit parameters carrying the decoded
  response, with `none` standing for a network or decode failure that
  would make `await` throw into the surrounding `catch`;
* JavaScript `||` on possibly-absent strings becomes `jsOr`, which tests
  truthiness (absent or empty string is falsy), and interpolation of a
  possibly-undefined value becomes `jsStr` (printing "undefined");
* pixel arithmetic, which JavaScript performs on floats but which here
  involves only exact halves (the `(count - 1) / 2` group-centering term),
  is carried out in `Rat`;
* purely cosmetic DOM effects (colors, tooltips, CSS classes of tokens,
  scroll position) are not modelled; they are not referenced by any claim.

The instrumentation field `UIState.fetches` counts invocations of
`fetchState`, observing the network boundary without altering behaviour.
-/

/-- Location-name-to-coordinates mapping, the decoded `state.map` object
(`{ "Name": [x, y] }`). JS object keys are unique; entries keep object
insertion order. -/
abbrev WorldMap := List (String × (Nat × Nat))

/-- One element of `state.characters`. -/
structure Character where
  name : String
  location : String
  status : Option String
deriving DecidableEq, Repr

/-- One element of `state.items`. -/
structure Item where
  name : String
  location : String
deriving DecidableEq, Repr

/-- One element of `state.events`; `args` is the decoded `event.args`
object (absent modelled as the empty list). -/
structure Event where
  actor : Option String
  action : String
  args : List (String × String)
  new_location : Option String
  target_override : Option String
deriving DecidableEq, Repr

/-- Decoded body of a successful `GET /api/state` response; every field is
optional (`data.map || {}` etc. supply defaults). -/
structure Snapshot where
  map : Option WorldMap
  characters : Option (List Character)
  items : Option (List Item)
  events : Option (List Event)
  turn : Option Nat
deriving DecidableEq, Repr

/-- Decoded body of a `POST /api/step` response. -/
structure StepResp where
  success : Bool
  complete : Bool
deriving DecidableEq, Repr

/-- First-match association-list lookup, modelling JS object property
access on objects with unique keys. -/
def alookup {α β : Type} [DecidableEq α] : List (α × β) → α → Option β
  | [], _ => none
  | p :: rest, k => if p.1 = k then some p.2 else alookup rest k

/-- JS truthiness of a possibly-absent string: `undefined` and `""` are
falsy. -/
def jsTruthy : Option String → Bool
  | none => false
  | some s => !(s == "")

/-- JS `a || b` on possibly-absent strings. -/
def jsOr (a b : Option String) : Option String :=
  if jsTruthy a then a else b

/-- JS template interpolation of a possibly-absent string (`undefined`
prints as "undefined"). -/
def jsStr : Option String → String
  | none => "undefined"
  | some s => s

/-- Action strings classified as dialogue (script.js line 334). -/
def dialogueActions : List String := ["说话", "开始说话", "结束说话", "继续说话"]

/-- Action strings classified as movement (script.js line 335). -/
def moveActions : List String := ["移动", "开始移动", "结束移动"]

/-- The `actionDescription` computed for one event by `renderEventLog`
(script.js lines 343-366). -/
def describeEvent (e : Event) : String :=
  let isDialogue := dialogueActions.contains e.action
  let isMove := moveActions.contains e.action
  let a := e.action
  if isDialogue then
    let target := jsOr (alookup e.args "目标") e.target_override
    let d1 := if jsTruthy target then a ++ " -> " ++ jsStr target else a
    let message := alookup e.args "内容"
    if jsTruthy message && (a == "说话") then
      a ++ " -> " ++ jsStr target ++ ": \"" ++ jsStr message ++ "\""
    else d1
  else if isMove then
    let dest := jsOr e.new_location (alookup e.args "方向")
    if jsTruthy dest then a ++ " -> " ++ jsStr dest else a
  else if a == "物品交互" then
    let target := alookup e.args "目标"
    if jsTruthy target then a ++ " -> " ++ jsStr target else a
  else a

/-- One rendered entry of the event-log panel: actor tag, action
description, optional inner-thought annotation (empty when absent). -/
structure EventLine where
  actor : String
  description : String
  thought : String
deriving DecidableEq, Repr

/-- The event-log line built for one event (script.js lines 332-378). -/
def renderEventLine (e : Event) : EventLine :=
  { actor := jsStr (jsOr e.actor (some "System")),
    description := describeEvent e,
    thought := jsStr (jsOr (alookup e.args "内心") (some "")) }

/-- Full rebuild of the event-log view (script.js lines 329-383):
`eventLog.innerHTML = ''` then one entry appended per event. -/
def renderEventLog (events : List Event) : List EventLine :=
  events.map renderEventLine

/-- Cell size configuration (script.js line 42). -/
def CELL_SIZE : Nat := 200

/-- Cell gap configuration (script.js line 43). -/
def CELL_GAP : Nat := 10

/-- Grid padding used in the positioning math (script.js line 296). -/
def GRID_PADDING : Nat := 20

/-- Horizontal spacing between co-located agents (script.js line 305). -/
def AGENT_SPACING : Nat := 40

/-- Running maximum of the x coordinates of a world map, starting at 0
(script.js lines 139-143). -/
def computedMaxX (m : WorldMap) : Nat :=
  m.foldl (fun a p => max a p.2.1) 0

/-- Running maximum of the y coordinates of a world map, starting at 0
(script.js lines 139-143, and the local fallback at lines 289-294). -/
def computedMaxY (m : WorldMap) : Nat :=
  m.foldl (fun a p => max a p.2.2) 0

/-- The `gridLayout` inverse index (script.js lines 149-152): the location
name assigned to coordinates `c`, last write winning as in a JS object,
hence the lookup over the reversed entry list. The JS composite key
`x,y` is injective on coordinate pairs, so the pair itself is the key. -/
def gridCellName (m : WorldMap) (c : Nat × Nat) : Option String :=
  alookup ((m.map (fun p => (p.2, p.1))).reverse) c

/-- Coordinates visited by the cell-generation loops (script.js lines
155-156): y from maxY down to 0, x from 0 to maxX. -/
def gridPositions (mX mY : Nat) : List (Nat × Nat) :=
  ((List.range (mY + 1)).reverse).flatMap
    (fun y => (List.range (mX + 1)).map (fun x => (x, y)))

/-- The labels of the grid cells produced by `renderMap` (script.js lines
132-174), in DOM order; `some name` is a labelled location cell, `none` an
empty placeholder cell. The empty map produces no cells (early return at
line 136). -/
def renderMapCells (m : WorldMap) : List (Option String) :=
  if m.isEmpty then []
  else (gridPositions (computedMaxX m) (computedMaxY m)).map (gridCellName m)

/-- Keys of a JS object in first-insertion order, as built by the
grouping loops (`itemsByLocation`, `charactersByLocation`). -/
def keyOrder (ls : List String) : List String :=
  ls.foldl (fun acc l => if l ∈ acc then acc else acc ++ [l]) []

/-- The item tokens rendered by `renderItems` (script.js lines 188-217):
for each location that has items and resolves in the world map, the
coordinate of its cell container and the item names rendered there, in
roster order. Locations whose name is absent from the map are skipped
(line 201). -/
def renderItems (m : WorldMap) (items : List Item) : List ((Nat × Nat) × List String) :=
  (keyOrder (items.map (fun i => i.location))).filterMap (fun loc =>
    match alookup m loc with
    | none => none
    | some c => some (c, (items.filter (fun i => i.location == loc)).map (fun i => i.name)))

/-- Persistent agent-rendering state: the `agentElements` registry
(script.js line 223, name to element), the set of elements currently
attached to `mapGrid`, and the fresh-element allocator. -/
structure RenderState where
  registry : List (String × Nat)
  attached : List Nat
  nextId : Nat
deriving DecidableEq, Repr

/-- One position assignment performed by `updateAgentPositions`
(script.js lines 310-311): the agent's name, its element, and the
`left`/`top` pixel values written to its style. -/
structure Assignment where
  name : String
  element : Nat
  left : Rat
  top : Rat
deriving DecidableEq, Repr

/-- The group-centering offset (script.js lines 302-308): applied only
when more than one agent shares the location, `(index - (count-1)/2) *
spacing` in exact rational arithmetic. -/
def offsetFor (index count : Nat) : Rat :=
  if 1 < count then ((index : Rat) - ((count : Rat) - 1) / 2) * (AGENT_SPACING : Rat)
  else 0

/-- The pixel position computed for one character with resolved
coordinates `coords` (script.js lines 283-311): `left = padding + x *
(cellSize + gap)` plus the group offset, `top = padding + (maxY - y) *
(cellSize + gap)`, with `maxY` taken from `state.gridMaxY` or recomputed
locally when unset (lines 289-294). The group index is `findIndex` by
name in the co-location group (line 303). -/
def agentPosition (m : WorldMap) (cs : List Character) (gridMaxY : Option Nat)
    (c : Character) (coords : Nat × Nat) : Rat × Rat :=
  let my := gridMaxY.getD (computedMaxY m)
  let base := (GRID_PADDING : Rat) + (coords.1 : Rat) * ((CELL_SIZE : Rat) + (CELL_GAP : Rat))
  let top := (GRID_PADDING : Rat) + ((my : Rat) - (coords.2 : Rat)) * ((CELL_SIZE : Rat) + (CELL_GAP : Rat))
  let group := cs.filter (fun d => d.location == c.location)
  let left :=
    if 1 < group.length then
      base + offsetFor (group.findIdx (fun d => d.name == c.name)) group.length
    else base
  (left, top)

/-- Accumulator of the per-character loop of `updateAgentPositions`. -/
structure UAPAcc where
  rs : RenderState
  trace : List Assignment
deriving DecidableEq, Repr

/-- One iteration of the per-character loop (script.js lines 251-312):
skip when the location does not resolve (line 254); otherwise create the
element if the name has no binding (lines 259-268), else reuse it,
re-attaching when evicted (lines 269-274); finally write the computed
position. -/
def uapStep (m : WorldMap) (cs : List Character) (gridMaxY : Option Nat)
    (acc : UAPAcc) (c : Character) : UAPAcc :=
  match alookup m c.location with
  | none => acc
  | some coords =>
    let next :=
      match alookup acc.rs.registry c.name with
      | none =>
        (acc.rs.nextId,
          { registry := acc.rs.registry ++ [(c.name, acc.rs.nextId)],
            attached := acc.rs.attached ++ [acc.rs.nextId],
            nextId := acc.rs.nextId + 1 : RenderState })
      | some el =>
        (el,
          if el ∈ acc.rs.attached then acc.rs
          else { acc.rs with attached := acc.rs.attached ++ [el] })
    let pos := agentPosition m cs gridMaxY c coords
    { rs := next.2, trace := acc.trace ++ [⟨c.name, next.1, pos.1, pos.2⟩] }

/-- `updateAgentPositions` (script.js lines 229-313): first the removal
diff (lines 230-239) destroys the elements of names absent from the
current roster and deletes their registry entries, then the
per-character loop updates or creates elements and writes positions.
Returns the new render state and the position-assignment trace. -/
def updateAgentPositions (m : WorldMap) (cs : List Character) (gridMaxY : Option Nat)
    (rs : RenderState) : RenderState × List Assignment :=
  let active := cs.map (fun c => c.name)
  let removed := (rs.registry.filter (fun p => decide (p.1 ∉ active))).map (fun p => p.2)
  let rs1 : RenderState :=
    { registry := rs.registry.filter (fun p => decide (p.1 ∈ active)),
      attached := rs.attached.filter (fun e => decide (e ∉ removed)),
      nextId := rs.nextId }
  let acc := cs.foldl (uapStep m cs gridMaxY) ⟨rs1, []⟩
  (acc.rs, acc.trace)

/-- The whole observable UI state: the `state` cache object, the control
bar, and the rendered views. `fetches` instruments the number of
`fetchState` invocations. -/
structure UIState where
  map : WorldMap
  characters : List Character
  items : List Item
  events : List Event
  turn : Nat
  running : Bool
  gridMaxY : Option Nat
  startLabel : String
  startFinished : Bool
  startDisabled : Bool
  stepDisabled : Bool
  resetDisabled : Bool
  turnDisplay : Nat
  eventLogView : List EventLine
  cells : List (Option String)
  itemsView : List ((Nat × Nat) × List String)
  render : RenderState
  fetches : Nat
deriving DecidableEq, Repr

/-- `updateUI` (script.js lines 318-323): refresh the turn counter,
rerun agent positioning, rebuild the event log. Grid cells and item
tokens are not touched here. -/
def updateUI (s : UIState) : UIState :=
  let s1 := { s with turnDisplay := s.turn }
  let rs := (updateAgentPositions s1.map s1.characters s1.gridMaxY s1.render).1
  { s1 with render := rs, eventLogView := renderEventLog s1.events }

/-- `fetchState` (script.js lines 59-74): `resp` is the decoded response,
`none` when the network request or JSON decode fails. On success every
cache field is replaced, absent fields defaulting via `||`, then
`updateUI` runs; on failure the error is logged and nothing changes. -/
def fetchState (resp : Option Snapshot) (s : UIState) : UIState :=
  let s := { s with fetches := s.fetches + 1 }
  match resp with
  | none => s
  | some d =>
    updateUI { s with
      map := d.map.getD [],
      characters := d.characters.getD [],
      items := d.items.getD [],
      events := d.events.getD [],
      turn := d.turn.getD 0 }

/-- `renderMap` (script.js lines 132-182): wipe the scene container
(which also detaches the cells, item tokens, and agent elements that
lived in it), return early on an empty map, otherwise rebuild the cells,
record `gridMaxY`, and rerun `renderItems` and `updateAgentPositions`. -/
def renderMap (s : UIState) : UIState :=
  let s0 := { s with cells := ([] : List (Option String)),
                     itemsView := ([] : List ((Nat × Nat) × List String)),
                     render := { s.render with attached := [] } }
  if s.map.isEmpty then s0
  else
    let s1 := { s0 with cells := renderMapCells s.map,
                        gridMaxY := some (computedMaxY s.map) }
    let s2 := { s1 with itemsView := renderItems s1.map s1.items }
    let rs := (updateAgentPositions s2.map s2.characters s2.gridMaxY s2.render).1
    { s2 with render := rs }

/-- `stepSimulation` (script.js lines 80-104): `resp` is the decoded
`/api/step` response (`none` when the POST or decode fails and the catch
block runs), `snap` the response the follow-up `fetchState` would see.
The step control is disabled for the duration; on success the state is
refetched; on completion the terminal UI lock engages; otherwise the step
control is re-enabled — also in the catch block. -/
def stepSimulation (resp : Option StepResp) (snap : Option Snapshot) (s : UIState) : UIState :=
  let s := { s with stepDisabled := true }
  match resp with
  | none => { s with stepDisabled := false }
  | some d =>
    let s := if d.success then fetchState snap s else s
    if d.complete then
      { s with running := false, startLabel := "✓ Complete", startFinished := true,
               startDisabled := true, stepDisabled := true }
    else
      { s with stepDisabled := false }

/-- `resetSimulation` (script.js lines 110-127): `postOk` tells whether
the `/api/reset` POST succeeded (the only awaited step that can throw
into the catch block; `fetchState` traps its own errors), `snap` the
response seen by the follow-up `fetchState`. On POST failure the catch
block only logs. On the normal path the running flag and control bar are
restored and the event log view is wiped — the agent registry is not. -/
def resetSimulation (postOk : Bool) (snap : Option Snapshot) (s : UIState) : UIState :=
  if postOk then
    let s := fetchState snap s
    let s := { s with running := false, startLabel := "▶ Start", startFinished := false,
                      startDisabled := false, stepDisabled := true, resetDisabled := true }
    { s with eventLogView := ([] : List EventLine) }
  else s

/-- A fresh UI state as the page script sets it up before `init` runs
(script.js lines 5-13; controls in their initial HTML state). -/
def initialUIState : UIState :=
  { map := [], characters := [], items := [], events := [], turn := 0,
    running := false, gridMaxY := none,
    startLabel := "▶ Start", startFinished := false, startDisabled := false,
    stepDisabled := true, resetDisabled := true,
    turnDisplay := 0, eventLogView := [], cells := [], itemsView := [],
    render := ⟨[], [], 0⟩, fetches := 0 }

/-- Sample snapshot carrying a two-location map and nothing else, used for
concrete evaluations. -/
def twoLocSnapshot : Snapshot :=
  { map := some [("A", (0, 0)), ("B", (1, 0))],
    characters := none, items := none, events := none, turn := none }

/-- Sample UI state as `init` leaves it after rendering a one-location
map, used for concrete evaluations. -/
def oneCellUIState : UIState :=
  { initialUIState with map := [("A", (0, 0))], cells := [some "A"], gridMaxY := some 0 }

/-- Sample snapshot produced by a true reset: the world restored to one
location and one character at it, turn 0. -/
def resetSnapshot : Snapshot :=
  { map := some [("Home", (0, 0))],
    characters := some [⟨"A", "Home", none⟩],
    items := none, events := none, turn := some 0 }

/-- Sample dialogue event carrying both an args target and a
target_override, used for concrete evaluations. -/
def dialogueBothTargetsEvent : Event :=
  { actor := none, action := "说话", args := [("目标", "A")],
    new_location := none, target_override := some "B" }

/-- Sample movement event carrying both a new_location and a directional
argument, used for concrete evaluations. -/
def moveBothDestinationsEvent : Event :=
  { actor := none, action := "移动", args := [("方向", "east")],
    new_location := some "厨房", target_override := none }

/-- Sample dialogue event with an args target only, used for concrete
evaluations. -/
def dialogueArgsTargetEvent : Event :=
  { actor := none, action := "开始说话", args := [("目标", "小红")],
    new_location := none, target_override := some "X" }

/-! Helper lemmas about association-list lookup, shared by the claim
theorems below. -/

example :
    (updateAgentPositions [("Home", (0, 0))] [⟨"A", "Home", none⟩] (some 0)
      ⟨[("A", 5), ("B", 7)], [5, 7], 8⟩).1 = ⟨[("A", 5)], [5], 8⟩ := by decide

example : describeEvent
    { actor := some "小张", action := "说话",
      args := [("目标", "小红"), ("内容", "hi")], new_location := none,
      target_override := some "X" } = "说话 -> 小红: \"hi\"" := by decide

theorem alookup_append_of_some {α β : Type} [DecidableEq α] {l1 l2 : List (α × β)}
    {k : α} {v : β} (h : alookup l1 k = some v) : alookup (l1 ++ l2) k = some v := by
  induction l1 with
  | nil => simp [alookup] at h
  | cons p rest ih =>
    by_cases hpk : p.1 = k
    · simp only [alookup, if_pos hpk] at h
      simp [List.cons_append, alookup, hpk, h]
    · simp only [alookup, if_neg hpk] at h
      simp only [List.cons_append, alookup, if_neg hpk]
      exact ih h

theorem alookup_append_of_none {α β : Type} [DecidableEq α] {l1 l2 : List (α × β)}
    {k : α} (h : alookup l1 k = none) : alookup (l1 ++ l2) k = alookup l2 k := by
  induction l1 with
  | nil => simp [alookup]
  | cons p rest ih =>
    by_cases hpk : p.1 = k
    · simp [alookup, if_pos hpk] at h
    · simp only [alookup, if_neg hpk] at h
      simp only [List.cons_append, alookup, if_neg hpk]
      exact ih h

theorem alookup_filter_key {α β : Type} [DecidableEq α] (p : α → Bool)
    (l : List (α × β)) (k : α) :
    alookup (l.filter (fun q => p q.1)) k = if p k then alookup l k else none := by
  induction l with
  | nil => simp [alookup]
  | cons q rest ih =>
    rw [List.filter_cons]
    by_cases hq : p q.1 = true
    · rw [if_pos hq]
      by_cases hqk : q.1 = k
      · subst hqk
        simp [alookup, hq]
      · simp only [alookup, if_neg hqk]
        exact ih
    · rw [if_neg hq]
      by_cases hqk : q.1 = k
      · subst hqk
        simp only [Bool.not_eq_true] at hq
        simp [alookup, hq, ih]
      · simp only [alookup, if_neg hqk]
        exact ih

theorem alookup_isSome_iff {α β : Type} [DecidableEq α] (l : List (α × β)) (k : α) :
    (alookup l k).isSome = true ↔ k ∈ l.map Prod.fst := by
  induction l with
  | nil => simp [alookup]
  | cons p rest ih =>
    by_cases hpk : p.1 = k
    · simp [alookup, hpk]
    · simp [alookup, if_neg hpk, ih, Ne.symm hpk]

theorem alookup_eq_none_iff {α β : Type} [DecidableEq α] (l : List (α × β)) (k : α) :
    alookup l k = none ↔ k ∉ l.map Prod.fst := by
  rw [← alookup_isSome_iff l k]
  cases alookup l k <;> simp

theorem alookup_of_mem_of_nodup {α β : Type} [DecidableEq α] {l : List (α × β)}
    {k : α} {v : β} (hnd : (l.map Prod.fst).Nodup) (h : (k, v) ∈ l) :
    alookup l k = some v := by
  induction l with
  | nil => simp at h
  | cons p rest ih =>
    simp only [List.map_cons, List.nodup_cons] at hnd
    rcases List.mem_cons.mp h with h1 | h1
    · subst h1
      simp [alookup]
    · have hk : k ∈ rest.map Prod.fst := List.mem_map_of_mem _ h1
      have hpk : p.1 ≠ k := fun he => hnd.1 (he ▸ hk)
      simp only [alookup, if_neg hpk]
      exact ih hnd.2 h1

theorem alookup_mem {α β : Type} [DecidableEq α] {l : List (α × β)} {k : α} {v : β}
    (h : alookup l k = some v) : (k, v) ∈ l := by
  induction l with
  | nil => simp [alookup] at h
  | cons p rest ih =>
    obtain ⟨a, b⟩ := p
    by_cases hak : a = k
    · subst hak
      simp only [alookup, if_pos rfl] at h
      injection h with hbv
      subst hbv
      exact List.mem_cons_self _ _
    · simp only [alookup, if_neg hak] at h
      exact List.mem_cons_of_mem _ (ih h)




/-! Helper lemmas about one iteration and the full loop of
`updateAgentPositions`. -/

theorem uapStep_lookup_some {m : WorldMap} {cs : List Character} {g : Option Nat}
    {acc : UAPAcc} {c : Character} {n : String} {e : Nat}
    (h : alookup acc.rs.registry n = some e) :
    alookup (uapStep m cs g acc c).rs.registry n = some e := by
  cases hml : alookup m c.location with
  | none => simpa [uapStep, hml] using h
  | some coords =>
    cases hreg : alookup acc.rs.registry c.name with
    | none =>
      simp only [uapStep, hml, hreg]
      exact alookup_append_of_some h
    | some el =>
      by_cases hat : el ∈ acc.rs.attached <;>
        simpa [uapStep, hml, hreg, hat] using h

theorem uapStep_lookup_other {m : WorldMap} {cs : List Character} {g : Option Nat}
    {acc : UAPAcc} {c : Character} {n : String} (hne : n ≠ c.name) :
    alookup (uapStep m cs g acc c).rs.registry n = alookup acc.rs.registry n := by
  cases hml : alookup m c.location with
  | none => simp [uapStep, hml]
  | some coords =>
    cases hreg : alookup acc.rs.registry c.name with
    | none =>
      simp only [uapStep, hml, hreg]
      cases hl : alookup acc.rs.registry n with
      | none =>
        rw [alookup_append_of_none hl]
        have h2 : c.name ≠ n := Ne.symm hne
        simp [alookup, h2]
      | some v => exact alookup_append_of_some hl
    | some el =>
      by_cases hat : el ∈ acc.rs.attached <;>
        simp [uapStep, hml, hreg, hat]

theorem uapStep_key_mem {m : WorldMap} {cs : List Character} {g : Option Nat}
    {acc : UAPAcc} {c : Character} {k : String}
    (hk : k ∈ (uapStep m cs g acc c).rs.registry.map Prod.fst) :
    k ∈ acc.rs.registry.map Prod.fst ∨ k = c.name := by
  cases hml : alookup m c.location with
  | none =>
    left
    simpa [uapStep, hml] using hk
  | some coords =>
    cases hreg : alookup acc.rs.registry c.name with
    | none =>
      simp only [uapStep, hml, hreg, List.map_append] at hk
      rcases List.mem_append.mp hk with h1 | h1
      · exact Or.inl h1
      · right
        simpa using h1
    | some el =>
      left
      by_cases hat : el ∈ acc.rs.attached <;>
        simpa [uapStep, hml, hreg, hat] using hk

theorem uapFold_lookup_some {m : WorldMap} {cs : List Character} {g : Option Nat}
    (l : List Character) (acc : UAPAcc) {n : String} {e : Nat}
    (h : alookup acc.rs.registry n = some e) :
    alookup (List.foldl (uapStep m cs g) acc l).rs.registry n = some e := by
  induction l generalizing acc with
  | nil => simpa using h
  | cons c rest ih =>
    rw [List.foldl_cons]
    exact ih _ (uapStep_lookup_some h)

theorem uapFold_lookup_of_not_name {m : WorldMap} {cs : List Character} {g : Option Nat}
    (l : List Character) (acc : UAPAcc) {n : String}
    (hn : n ∉ l.map (fun c => c.name)) :
    alookup (List.foldl (uapStep m cs g) acc l).rs.registry n = alookup acc.rs.registry n := by
  induction l generalizing acc with
  | nil => simp
  | cons c rest ih =>
    simp only [List.map_cons, List.mem_cons, not_or] at hn
    rw [List.foldl_cons, ih _ hn.2]
    exact uapStep_lookup_other hn.1

theorem uapFold_key_mem {m : WorldMap} {cs : List Character} {g : Option Nat}
    (l : List Character) (acc : UAPAcc) {k : String}
    (hk : k ∈ (List.foldl (uapStep m cs g) acc l).rs.registry.map Prod.fst) :
    k ∈ acc.rs.registry.map Prod.fst ∨ k ∈ l.map (fun c => c.name) := by
  induction l generalizing acc with
  | nil => exact Or.inl hk
  | cons c rest ih =>
    rw [List.foldl_cons] at hk
    rcases ih _ hk with h1 | h1
    · rcases uapStep_key_mem h1 with h2 | h2
      · exact Or.inl h2
      · right
        simp [h2]
    · right
      simp [h1]

/-- Keys of the registry produced by `updateAgentPositions` all belong to
the roster that was passed in: the removal diff keeps only active names
and the loop only ever adds bindings for roster names. -/
theorem updateAgentPositions_keys {m : WorldMap} {cs : List Character} {g : Option Nat}
    {rs : RenderState} {p : String × Nat}
    (hp : p ∈ (updateAgentPositions m cs g rs).1.registry) :
    p.1 ∈ cs.map (fun c => c.name) := by
  simp only [updateAgentPositions] at hp
  have hk : p.1 ∈ (List.foldl (uapStep m cs g)
      ⟨{ registry := rs.registry.filter (fun q => decide (q.1 ∈ cs.map (fun c => c.name))),
         attached := rs.attached.filter (fun e => decide (e ∉
           (rs.registry.filter (fun q => decide (q.1 ∉ cs.map (fun c => c.name)))).map
             (fun q => q.2))),
         nextId := rs.nextId }, []⟩ cs).rs.registry.map Prod.fst :=
    List.mem_map_of_mem _ hp
  rcases uapFold_key_mem cs _ hk with h1 | h1
  · simp only [List.mem_map] at h1
    obtain ⟨q, hq, hqk⟩ := h1
    rw [List.mem_filter] at hq
    rw [← hqk]
    simpa using hq.2
  · exact h1

/-! Claim theorems. -/

/-- Claim C10 (confirmed): if the reset POST itself fails at the network
layer, `resetSimulation` jumps to its catch block before the state fetch
and before any mutation, so the whole UI state — cache, running flag,
control enablement, start label, event log view, registry — is exactly
what it was before the call. -/
theorem resetSimulation_post_failure_is_noop (snap : Option Snapshot) (s : UIState) :
    resetSimulation false snap s = s := rfl

/-- Claim C4 (confirmed): a successful `fetchState` replaces all five
cached fields with the response values, defaulting each missing field to
its empty container or zero, and a failed `fetchState` leaves every one
of the five cached fields unchanged (the function is total, so no error
escapes its boundary). -/
theorem fetchState_replaces_all_or_nothing (d : Snapshot) (s : UIState) :
    (fetchState (some d) s).map = d.map.getD [] ∧
    (fetchState (some d) s).characters = d.characters.getD [] ∧
    (fetchState (some d) s).items = d.items.getD [] ∧
    (fetchState (some d) s).events = d.events.getD [] ∧
    (fetchState (some d) s).turn = d.turn.getD 0 ∧
    (fetchState none s).map = s.map ∧
    (fetchState none s).characters = s.characters ∧
    (fetchState none s).items = s.items ∧
    (fetchState none s).events = s.events ∧
    (fetchState none s).turn = s.turn :=
  ⟨rfl, rfl, rfl, rfl, rfl, rfl, rfl, rfl, rfl, rfl⟩

/-- Claim C8 (confirmed): `stepSimulation` on `{success: true, complete:
false}` performs exactly one follow-up state fetch and re-enables the
step control; on `{success: true, complete: true}` it performs one fetch
and leaves both start and step controls disabled; on network failure it
performs no fetch, re-enables the step control, and changes no
terminal-state field (start label, finished flag, start enablement,
running flag all untouched). -/
theorem stepSimulation_fetch_and_controls (snap : Option Snapshot) (s : UIState) :
    ((stepSimulation (some ⟨true, false⟩) snap s).fetches = s.fetches + 1 ∧
      (stepSimulation (some ⟨true, false⟩) snap s).stepDisabled = false) ∧
    ((stepSimulation (some ⟨true, true⟩) snap s).fetches = s.fetches + 1 ∧
      (stepSimulation (some ⟨true, true⟩) snap s).startDisabled = true ∧
      (stepSimulation (some ⟨true, true⟩) snap s).stepDisabled = true) ∧
    ((stepSimulation none snap s).fetches = s.fetches ∧
      (stepSimulation none snap s).stepDisabled = false ∧
      (stepSimulation none snap s).startDisabled = s.startDisabled ∧
      (stepSimulation none snap s).startLabel = s.startLabel ∧
      (stepSimulation none snap s).startFinished = s.startFinished ∧
      (stepSimulation none snap s).running = s.running) := by
  cases snap <;>
    exact ⟨⟨rfl, rfl⟩, ⟨rfl, rfl, rfl⟩, rfl, rfl, rfl, rfl, rfl, rfl⟩

/-- Claim C2 counterexample: a successful snapshot fetch does not rebuild
the structural scene. Starting from the state `init` leaves after a
one-location map, a fetch whose snapshot carries a two-location map
leaves the cell list unchanged, and in particular different from what
rebuilding from the newly cached map would produce. -/
theorem fetchState_does_not_rebuild_cells_cex :
    (fetchState (some twoLocSnapshot) oneCellUIState).cells = [some "A"] ∧
    (fetchState (some twoLocSnapshot) oneCellUIState).cells ≠
      renderMapCells (fetchState (some twoLocSnapshot) oneCellUIState).map ∧
    (fetchState (some twoLocSnapshot) oneCellUIState).itemsView = [] := by
  refine ⟨rfl, ?_, rfl⟩
  decide

/-- Claim C2 (amended): the per-poll refresh performed by a successful
snapshot fetch re-renders only agent positions and the event log; grid
cells and item tokens are left untouched by every fetch. They are torn
down and rebuilt from the cached world map and item list only by
`renderMap`, which runs at initialization. -/
theorem fetchState_leaves_structure_renderMap_rebuilds (resp : Option Snapshot) (s : UIState) :
    (fetchState resp s).cells = s.cells ∧
    (fetchState resp s).itemsView = s.itemsView ∧
    (renderMap s).cells = renderMapCells s.map ∧
    (renderMap s).itemsView = renderItems s.map s.items := by
  refine ⟨?_, ?_, ?_, ?_⟩
  · cases resp <;> rfl
  · cases resp <;> rfl
  · by_cases h : s.map.isEmpty
    · simp [renderMap, renderMapCells, h]
    · simp [renderMap, renderMapCells, h]
  · by_cases h : s.map.isEmpty
    · have hm : s.map = [] := List.isEmpty_iff.mp h
      simp only [renderMap, if_pos h, hm]
      symm
      simp [renderItems, alookup, List.filterMap_eq_nil_iff]
    · simp [renderMap, h]

/-- Claim C1 counterexample: a fully successful `resetSimulation` does
not empty the agent-visual registry. From a fresh UI state, resetting
into a snapshot with one character leaves a non-empty name-to-element
mapping (the fetched roster gets bound during the follow-up fetch, and
the reset handler never touches `agentElements`). -/
theorem resetSimulation_registry_not_empty_cex :
    (resetSimulation true (some resetSnapshot) initialUIState).render.registry
      = [("A", 0)] ∧
    (resetSimulation true (some resetSnapshot) initialUIState).render.registry ≠ [] := by
  refine ⟨by decide, ?_⟩
  decide

/-- Claim C1 (amended): a successful `resetSimulation` (POST accepted and
snapshot decoded) always clears the event log view and sets the
displayed turn to the freshly fetched value; the agent-visual registry
is not emptied — instead every binding it still holds is for a name of
the freshly fetched roster (stale names are removed by the positioning
diff, bindings for fetched names persist or are created). -/
theorem resetSimulation_clears_log_sets_turn (d : Snapshot) (s : UIState) :
    (resetSimulation true (some d) s).eventLogView = [] ∧
    (resetSimulation true (some d) s).turnDisplay = d.turn.getD 0 ∧
    ∀ p ∈ (resetSimulation true (some d) s).render.registry,
      p.1 ∈ (d.characters.getD []).map (fun c => c.name) := by
  refine ⟨rfl, rfl, ?_⟩
  intro p hp
  exact updateAgentPositions_keys hp

/-- Claim C3 counterexample: for a dialogue event carrying both an args
target ("A") and a target_override ("B"), the rendered description uses
the args target, not the override — `args['目标'] || event.target_override`
prefers the args entry (script.js line 347). -/
theorem dialogue_target_override_ignored_cex :
    describeEvent dialogueBothTargetsEvent = "说话 -> A" ∧
    describeEvent dialogueBothTargetsEvent ≠ "说话 -> B" := by
  constructor <;> decide

/-- Claim C3 (amended): for movement events the explicit `new_location`
override is indeed preferred over the directional argument; but for
dialogue events the precedence is the reverse of the claim: a non-empty
args target is displayed and `target_override` is only a fallback. -/
theorem event_destination_and_target_precedence :
    (∀ (e : Event) (dst : String), e.action ∈ moveActions →
      e.new_location = some dst → dst ≠ "" →
      describeEvent e = e.action ++ " -> " ++ dst) ∧
    (∀ (e : Event) (t : String), e.action ∈ dialogueActions →
      alookup e.args "目标" = some t → t ≠ "" →
      describeEvent e =
        (if jsTruthy (alookup e.args "内容") && (e.action == "说话") then
          e.action ++ " -> " ++ t ++ ": \"" ++ jsStr (alookup e.args "内容") ++ "\""
        else e.action ++ " -> " ++ t)) := by
  constructor
  · intro e dst hmv hdst hne
    have hb : (dst == "") = false := by simpa using hne
    rcases (by simpa [moveActions] using hmv : e.action = "移动" ∨ e.action = "开始移动" ∨
        e.action = "结束移动") with h | h | h <;>
      simp [describeEvent, dialogueActions, moveActions, h, hdst, jsOr, jsTruthy, hb, jsStr]
  · intro e t hdl ht hne
    have hb : (t == "") = false := by simpa using hne
    rcases (by simpa [dialogueActions] using hdl : e.action = "说话" ∨ e.action = "开始说话" ∨
        e.action = "结束说话" ∨ e.action = "继续说话") with h | h | h | h
    all_goals
      cases hmsg : alookup e.args "内容" with
      | none =>
        simp [describeEvent, dialogueActions, moveActions, h, ht, jsOr, jsTruthy, hb, jsStr, hmsg]
      | some msg =>
        cases hb2 : (msg == "") <;>
          simp [describeEvent, dialogueActions, moveActions, h, ht, jsOr, jsTruthy, hb, jsStr,
            hmsg, hb2]

/-- Claim C3 witness: the amended precedence rules evaluated at concrete
events — a movement event with both destination fields displays the
new_location, a dialogue event with a non-empty args target displays
that target. -/
theorem event_destination_and_target_precedence_witness :
    describeEvent moveBothDestinationsEvent = "移动 -> 厨房" ∧
    describeEvent dialogueArgsTargetEvent = "开始说话 -> 小红" := by
  constructor
  · exact event_destination_and_target_precedence.1 moveBothDestinationsEvent "厨房"
      (by decide) rfl (by decide)
  · exact event_destination_and_target_precedence.2 dialogueArgsTargetEvent "小红"
      (by decide) rfl (by decide)

/-- One loop iteration never brings a given element back: if an element
is detached, not bound in the registry, and below the allocation counter,
it stays so (fresh creations use counter values, re-attachment only uses
bound elements). -/
theorem uapStep_avoid {m : WorldMap} {cs : List Character} {g : Option Nat}
    {acc : UAPAcc} {c : Character} {el : Nat}
    (h1 : el ∉ acc.rs.attached)
    (h2 : el ∉ acc.rs.registry.map Prod.snd)
    (h3 : el < acc.rs.nextId) :
    el ∉ (uapStep m cs g acc c).rs.attached ∧
    el ∉ (uapStep m cs g acc c).rs.registry.map Prod.snd ∧
    el < (uapStep m cs g acc c).rs.nextId := by
  cases hml : alookup m c.location with
  | none =>
    exact ⟨by simpa [uapStep, hml] using h1, by simpa [uapStep, hml] using h2,
      by simpa [uapStep, hml] using h3⟩
  | some coords =>
    cases hreg : alookup acc.rs.registry c.name with
    | none =>
      have hne : el ≠ acc.rs.nextId := Nat.ne_of_lt h3
      refine ⟨?_, ?_, ?_⟩
      · simp only [uapStep, hml, hreg, List.mem_append]
        rintro (h | h)
        · exact h1 h
        · exact hne (by simpa using h)
      · simp only [uapStep, hml, hreg, List.map_append, List.mem_append]
        rintro (h | h)
        · exact h2 h
        · exact hne (by simpa using h)
      · simp only [uapStep, hml, hreg]
        exact Nat.lt_succ_of_lt h3
    | some e2 =>
      have he2 : e2 ∈ acc.rs.registry.map Prod.snd :=
        List.mem_map_of_mem _ (alookup_mem hreg)
      have hne : el ≠ e2 := fun he => h2 (he ▸ he2)
      by_cases hat : e2 ∈ acc.rs.attached
      · exact ⟨by simpa [uapStep, hml, hreg, hat] using h1,
          by simpa [uapStep, hml, hreg, hat] using h2,
          by simpa [uapStep, hml, hreg, hat] using h3⟩
      · refine ⟨?_, by simpa [uapStep, hml, hreg, hat] using h2,
          by simpa [uapStep, hml, hreg, hat] using h3⟩
        have hattEq : (uapStep m cs g acc c).rs.attached = acc.rs.attached ++ [e2] := by
          simp [uapStep, hml, hreg, hat]
        rw [hattEq]
        simp only [List.mem_append, List.mem_singleton]
        rintro (h | h)
        · exact h1 h
        · exact hne h

/-- Loop version of `uapStep_avoid`. -/
theorem uapFold_avoid {m : WorldMap} {cs : List Character} {g : Option Nat}
    (l : List Character) (acc : UAPAcc) {el : Nat}
    (h1 : el ∉ acc.rs.attached)
    (h2 : el ∉ acc.rs.registry.map Prod.snd)
    (h3 : el < acc.rs.nextId) :
    el ∉ (List.foldl (uapStep m cs g) acc l).rs.attached := by
  induction l generalizing acc with
  | nil => simpa using h1
  | cons c rest ih =>
    rw [List.foldl_cons]
    obtain ⟨g1, g2, g3⟩ := uapStep_avoid (c := c) h1 h2 h3
    exact ih _ g1 g2 g3

/-- Claim C7 counterexample: an unchanged character-name set between two
polls does not guarantee that no name is bound to a new visual element.
"A" is first polled at an unknown location (skipped, no element), then at
a known one: the second poll binds "A" to a freshly created element even
though the name set was identical. -/
theorem registry_new_binding_same_nameset_cex :
    (updateAgentPositions [("Home", (0, 0))] [⟨"A", "Nowhere", none⟩] (some 0)
      ⟨[], [], 0⟩).1 = ⟨[], [], 0⟩ ∧
    List.map (fun c => c.name) [(⟨"A", "Nowhere", none⟩ : Character)] =
      List.map (fun c => c.name) [(⟨"A", "Home", none⟩ : Character)] ∧
    alookup (updateAgentPositions [("Home", (0, 0))] [⟨"A", "Home", none⟩] (some 0)
      (updateAgentPositions [("Home", (0, 0))] [⟨"A", "Nowhere", none⟩] (some 0)
        ⟨[], [], 0⟩).1).1.registry "A" = some 0 := by
  refine ⟨by decide, by decide, by decide⟩

/-- Claim C7 (amended): the registry is maintained by diffing rosters.
Every name bound before a poll that remains in the roster keeps exactly
its element (no rebinding, so an unchanged name set preserves all
existing bindings); a name absent from the roster has no binding
afterwards; and — in a well-formed render state (distinct element values,
all below the allocation counter) — the element of a removed name is
detached from the scene and not resurrected. New elements can still be
created for roster names with no prior binding (e.g. a location that
becomes resolvable), which is what the original claim missed. -/
theorem updateAgentPositions_roster_diff (m : WorldMap) (cs : List Character)
    (g : Option Nat) (rs : RenderState)
    (hvals : (rs.registry.map Prod.snd).Nodup)
    (hlt : ∀ e ∈ rs.registry.map Prod.snd, e < rs.nextId) :
    (∀ n el, alookup rs.registry n = some el → n ∈ cs.map (fun c => c.name) →
      alookup (updateAgentPositions m cs g rs).1.registry n = some el) ∧
    (∀ n, n ∉ cs.map (fun c => c.name) →
      alookup (updateAgentPositions m cs g rs).1.registry n = none) ∧
    (∀ n el, alookup rs.registry n = some el → n ∉ cs.map (fun c => c.name) →
      el ∉ (updateAgentPositions m cs g rs).1.attached) := by
  refine ⟨?_, ?_, ?_⟩
  · intro n el hlk hmem
    simp only [updateAgentPositions]
    apply uapFold_lookup_some
    rw [alookup_filter_key (fun k => decide (k ∈ cs.map (fun c => c.name)))]
    rw [if_pos (decide_eq_true hmem)]
    exact hlk
  · intro n hn
    simp only [updateAgentPositions]
    rw [uapFold_lookup_of_not_name cs _ (by simpa using hn)]
    rw [alookup_filter_key (fun k => decide (k ∈ cs.map (fun c => c.name)))]
    simp [hn]
  · intro n el hlk hn
    have hent : (n, el) ∈ rs.registry := alookup_mem hlk
    have hval : el ∈ rs.registry.map Prod.snd := List.mem_map_of_mem _ hent
    simp only [updateAgentPositions]
    apply uapFold_avoid
    · intro hmem
      rw [List.mem_filter] at hmem
      have hrem : el ∈ (rs.registry.filter
          (fun p => decide (p.1 ∉ cs.map (fun c => c.name)))).map (fun p => p.2) :=
        List.mem_map.mpr ⟨(n, el), by rw [List.mem_filter]; exact ⟨hent, decide_eq_true hn⟩, rfl⟩
      exact (of_decide_eq_true hmem.2) hrem
    · intro hmem
      obtain ⟨q, hq, hqv⟩ := List.mem_map.mp hmem
      rw [List.mem_filter] at hq
      have hqn : q = (n, el) :=
        List.inj_on_of_nodup_map hvals hq.1 hent (by simpa using hqv)
      have hq2 : q.1 ∈ List.map (fun c => c.name) cs := of_decide_eq_true hq.2
      rw [hqn] at hq2
      exact hn hq2
    · exact hlt el hval

/-- Claim C7 witness: the roster-diff semantics evaluated at a concrete
state — roster ["A"], registry {A: 5, B: 7}: A keeps element 5, B's
binding is gone, and element 7 is detached. -/
theorem updateAgentPositions_roster_diff_witness :
    alookup (updateAgentPositions [("Home", (0, 0))] [⟨"A", "Home", none⟩] (some 0)
      ⟨[("A", 5), ("B", 7)], [5, 7], 8⟩).1.registry "A" = some 5 ∧
    alookup (updateAgentPositions [("Home", (0, 0))] [⟨"A", "Home", none⟩] (some 0)
      ⟨[("A", 5), ("B", 7)], [5, 7], 8⟩).1.registry "B" = none ∧
    7 ∉ (updateAgentPositions [("Home", (0, 0))] [⟨"A", "Home", none⟩] (some 0)
      ⟨[("A", 5), ("B", 7)], [5, 7], 8⟩).1.attached := by
  have h := updateAgentPositions_roster_diff [("Home", (0, 0))] [⟨"A", "Home", none⟩]
    (some 0) ⟨[("A", 5), ("B", 7)], [5, 7], 8⟩ (by decide) (by decide)
  exact ⟨h.1 "A" 5 (by decide) (by decide), h.2.1 "B" (by decide),
    h.2.2 "B" 7 (by decide) (by decide)⟩

/-- `findIndex` by name recovers a character's own index in a list whose
names are pairwise distinct. -/
theorem findIdx_name_of_get_nodup (l : List Character) (c : Character) (i : Nat)
    (hnd : (l.map (fun d => d.name)).Nodup) (hi : l.get? i = some c) :
    l.findIdx (fun d => d.name == c.name) = i := by
  induction l generalizing i with
  | nil => simp at hi
  | cons d rest ih =>
    cases i with
    | zero =>
      have hdc : d = c := by simpa using hi
      subst hdc
      simp [List.findIdx_cons]
    | succ n =>
      have hi2 : rest.get? n = some c := by simpa using hi
      simp only [List.map_cons, List.nodup_cons] at hnd
      have hcm : c ∈ rest := List.get?_mem hi2
      have hcn : c.name ∈ rest.map (fun d => d.name) := List.mem_map_of_mem _ hcm
      have hdc : (d.name == c.name) = false := by
        rw [beq_eq_false_iff_ne]
        exact fun he => hnd.1 (he ▸ hcn)
      simp only [List.findIdx_cons, hdc, cond_false]
      rw [ih n hnd.2 hi2]

/-- Claim C6 (confirmed): for a character whose location resolves to
coordinates `xy` and which sits at index `i` of its co-location group
(character names within the group distinct, as the data model requires of
name-identified characters), the computed position is `left = padding +
x*(cellSize+gap) + offsetFor i k` with `offsetFor i k = (i-(k-1)/2) *
spacing` for `k > 1` and `0` otherwise, and `top = padding +
(maxY-y)*(cellSize+gap)`; moreover the offsets of a group are symmetric
about the cell centre (offsets at `j` and `k-1-j` cancel), for `k = 3`
the middle offset is `0`, and for `k = 2` the two offsets differ. -/
theorem agentPosition_formula (m : WorldMap) (cs : List Character) (my : Nat)
    (c : Character) (xy : Nat × Nat) (i : Nat)
    (hc : alookup m c.location = some xy)
    (hg : (cs.filter (fun d => d.location == c.location)).get? i = some c)
    (hnd : ((cs.filter (fun d => d.location == c.location)).map (fun d => d.name)).Nodup) :
    agentPosition m cs (some my) c xy =
      ((GRID_PADDING : Rat) + (xy.1 : Rat) * ((CELL_SIZE : Rat) + (CELL_GAP : Rat)) +
        offsetFor i (cs.filter (fun d => d.location == c.location)).length,
       (GRID_PADDING : Rat) + ((my : Rat) - (xy.2 : Rat)) * ((CELL_SIZE : Rat) + (CELL_GAP : Rat))) ∧
    (∀ j, j < (cs.filter (fun d => d.location == c.location)).length →
      offsetFor j (cs.filter (fun d => d.location == c.location)).length +
        offsetFor ((cs.filter (fun d => d.location == c.location)).length - 1 - j)
          (cs.filter (fun d => d.location == c.location)).length = 0) ∧
    ((cs.filter (fun d => d.location == c.location)).length = 3 → offsetFor 1 3 = 0) ∧
    ((cs.filter (fun d => d.location == c.location)).length = 2 →
      offsetFor 0 2 ≠ offsetFor 1 2) := by
  refine ⟨?_, ?_, ?_, ?_⟩
  · simp only [agentPosition, Option.getD_some]
    rw [findIdx_name_of_get_nodup _ c i hnd hg]
    by_cases hk : 1 < (cs.filter (fun d => d.location == c.location)).length
    · rw [if_pos hk]
    · rw [if_neg hk]
      rw [offsetFor, if_neg hk, add_zero]
  · intro j hj
    by_cases hk : 1 < (cs.filter (fun d => d.location == c.location)).length
    · rw [offsetFor, offsetFor, if_pos hk, if_pos hk]
      have h1 : 1 ≤ (cs.filter (fun d => d.location == c.location)).length :=
        le_of_lt hk
      have hj1 : j ≤ (cs.filter (fun d => d.location == c.location)).length - 1 :=
        Nat.le_sub_one_of_lt hj
      rw [Nat.cast_sub hj1, Nat.cast_sub h1, Nat.cast_one]
      ring
    · rw [offsetFor, offsetFor, if_neg hk, if_neg hk, add_zero]
  · intro hk
    norm_num [offsetFor, AGENT_SPACING]
  · intro hk
    norm_num [offsetFor, AGENT_SPACING]

/-- Claim C6 witness: the formula evaluated for two co-located agents —
"A" at index 0 of the pair at (0, 0) with maxY 0 lands at (0, 20) (base
left 20 shifted by the symmetric offset -20), the pair's offsets cancel
and differ. -/
theorem agentPosition_formula_witness :
    agentPosition [("Home", (0, 0))] [⟨"A", "Home", none⟩, ⟨"B", "Home", none⟩]
      (some 0) ⟨"A", "Home", none⟩ (0, 0) = (0, 20) ∧
    offsetFor 0 2 + offsetFor 1 2 = 0 ∧
    offsetFor 0 2 ≠ offsetFor 1 2 := by
  have h := agentPosition_formula [("Home", (0, 0))]
    [⟨"A", "Home", none⟩, ⟨"B", "Home", none⟩] 0 ⟨"A", "Home", none⟩ (0, 0) 0
    (by decide) (by decide) (by decide)
  refine ⟨?_, ?_, h.2.2.2 (by decide)⟩
  · rw [h.1]
    norm_num [offsetFor, GRID_PADDING, CELL_SIZE, CELL_GAP, AGENT_SPACING, Prod.ext_iff]
  · have h2 := h.2.1 0 (by decide)
    simpa using h2

/-- The initial accumulator of a running-maximum fold bounds nothing: the
fold result dominates the seed. -/
theorem foldl_max_ge_init {α : Type} (g : α → Nat) (l : List α) (a : Nat) :
    a ≤ l.foldl (fun b x => max b (g x)) a := by
  induction l generalizing a with
  | nil => exact le_refl a
  | cons x rest ih =>
    exact le_trans (le_max_left a (g x)) (ih (max a (g x)))

/-- Every member's measure is dominated by the running-maximum fold. -/
theorem foldl_max_ge_mem {α : Type} (g : α → Nat) (l : List α) (a : Nat)
    {x : α} (hx : x ∈ l) :
    g x ≤ l.foldl (fun b y => max b (g y)) a := by
  induction l generalizing a with
  | nil => simp at hx
  | cons y rest ih =>
    rcases List.mem_cons.mp hx with h | h
    · subst h
      exact le_trans (le_max_right a (g x)) (foldl_max_ge_init g rest _)
    · exact ih (max a (g y)) h

/-- Coordinates stored in the world map are bounded by the computed
maxima. -/
theorem coord_le_computedMax {m : WorldMap} {c : Nat × Nat}
    (hc : c ∈ m.map (fun p => p.2)) :
    c.1 ≤ computedMaxX m ∧ c.2 ≤ computedMaxY m := by
  obtain ⟨p, hp, hpc⟩ := List.mem_map.mp hc
  subst hpc
  exact ⟨foldl_max_ge_mem (fun q => q.2.1) m 0 hp, foldl_max_ge_mem (fun q => q.2.2) m 0 hp⟩

/-- The cell-generation loops visit `(maxX+1) * (maxY+1)` coordinates. -/
theorem gridPositions_length (mX mY : Nat) :
    (gridPositions mX mY).length = (mX + 1) * (mY + 1) := by
  rw [gridPositions, List.length_flatMap, List.map_reverse, List.sum_reverse]
  have hf : (List.length ∘ fun y : Nat => List.map (fun x : Nat => (x, y))
      (List.range (mX + 1))) = fun _ : Nat => mX + 1 := funext fun y => by simp
  rw [hf, List.map_const', List.length_range, List.sum_replicate, smul_eq_mul, mul_comm]

/-- Membership in the visited coordinates is exactly the bounding box. -/
theorem mem_gridPositions {mX mY : Nat} {c : Nat × Nat} :
    c ∈ gridPositions mX mY ↔ c.1 ≤ mX ∧ c.2 ≤ mY := by
  obtain ⟨x, y⟩ := c
  simp only [gridPositions, List.mem_flatMap, List.mem_reverse, List.mem_range, List.mem_map]
  constructor
  · rintro ⟨y1, hy1, x1, hx1, he⟩
    injection he with he1 he2
    subst he1; subst he2
    exact ⟨Nat.lt_succ_iff.mp hx1, Nat.lt_succ_iff.mp hy1⟩
  · rintro ⟨hx, hy⟩
    exact ⟨y, Nat.lt_succ_of_le hy, x, Nat.lt_succ_of_le hx, rfl⟩

/-- The cell-generation loops visit each coordinate exactly once. -/
theorem gridPositions_nodup (mX mY : Nat) : (gridPositions mX mY).Nodup := by
  rw [gridPositions, List.nodup_flatMap]
  constructor
  · intro y hy
    apply List.Nodup.map
    · intro a b h
      exact congrArg Prod.fst h
    · exact List.nodup_range _
  · rw [List.pairwise_reverse]
    apply List.Pairwise.imp _ (List.pairwise_lt_range _)
    intro a b hab
    rw [Function.onFun]
    rw [List.disjoint_right]
    rintro p hp hq
    obtain ⟨x1, hx1, he1⟩ := List.mem_map.mp hp
    obtain ⟨x2, hx2, he2⟩ := List.mem_map.mp hq
    rw [← he1] at he2
    injection he2 with h1 h2
    exact absurd h2 (Nat.ne_of_gt hab)

/-- A cell is labelled exactly when its coordinate is one of the world
map's coordinates. -/
theorem gridCellName_isSome_iff (m : WorldMap) (c : Nat × Nat) :
    (gridCellName m c).isSome = true ↔ c ∈ m.map (fun p => p.2) := by
  rw [gridCellName, alookup_isSome_iff]
  rw [List.map_reverse, List.mem_reverse, List.map_map]
  constructor
  · intro h
    simpa using h
  · intro h
    simpa using h

/-- With pairwise-distinct coordinates, the number of labelled cells is
the number of world-map entries. -/
theorem renderMapCells_count (m : WorldMap) (hne : m ≠ [])
    (hnd : (m.map (fun p => p.2)).Nodup) :
    (renderMapCells m).countP (fun o => o.isSome) = m.length := by
  rw [renderMapCells, if_neg (by simp [List.isEmpty_iff, hne])]
  rw [List.countP_map, List.countP_eq_length_filter]
  have hfn : (List.filter ((fun o : Option String => o.isSome) ∘ gridCellName m)
      (gridPositions (computedMaxX m) (computedMaxY m))).Nodup :=
    (gridPositions_nodup _ _).filter _
  rw [← List.toFinset_card_of_nodup hfn]
  rw [show m.length = (m.map (fun p => p.2)).length from (List.length_map _ _).symm]
  rw [← List.toFinset_card_of_nodup hnd]
  congr 1
  ext c
  simp only [List.mem_toFinset, List.mem_filter, Function.comp_apply,
    gridCellName_isSome_iff, mem_gridPositions]
  constructor
  · rintro ⟨h1, h2⟩
    exact h2
  · intro h
    exact ⟨coord_le_computedMax h, h⟩

/-- With pairwise-distinct coordinates, each entry's cell carries exactly
its name. -/
theorem gridCellName_of_mem (m : WorldMap) (hnd : (m.map (fun p => p.2)).Nodup)
    {n : String} {c : Nat × Nat} (h : (n, c) ∈ m) :
    gridCellName m c = some n := by
  rw [gridCellName]
  apply alookup_of_mem_of_nodup
  · rw [List.map_reverse, List.nodup_reverse, List.map_map]
    simpa [Function.comp] using hnd
  · rw [List.mem_reverse, List.mem_map]
    exact ⟨(n, c), h, rfl⟩

/-- Claim C5 counterexample: the labelled-cell count can differ from the
number of entries. Two locations sharing coordinates (0,0) produce a
single cell, only one of which (the later write) bears a label, so
exactly N cells are labelled fails for N = 2. -/
theorem renderMapCells_label_count_cex :
    (renderMapCells [("A", (0, 0)), ("B", (0, 0))]).countP (fun o => o.isSome) ≠
      ([("A", (0, 0)), ("B", (0, 0))] : WorldMap).length ∧
    renderMapCells [("A", (0, 0)), ("B", (0, 0))] = [some "B"] := by
  constructor <;> decide

/-- Claim C5 (amended): for a non-empty world map whose entries have
pairwise-distinct coordinates, the rendered grid has exactly
`(maxX+1) * (maxY+1)` cells, exactly N of them labelled, each label the
world-map name of that cell's coordinates; the empty world map renders
zero cells (and, the functions being total, no error arises). When
coordinates collide, only the colliding cell's last writer is labelled,
which is what the original unconditional claim missed. -/
theorem renderMap_grid_semantics (m : WorldMap) (hne : m ≠ [])
    (hnd : (m.map (fun p => p.2)).Nodup) :
    (renderMapCells m).length = (computedMaxX m + 1) * (computedMaxY m + 1) ∧
    (renderMapCells m).countP (fun o => o.isSome) = m.length ∧
    (∀ n c, (n, c) ∈ m → gridCellName m c = some n) ∧
    renderMapCells [] = [] := by
  refine ⟨?_, renderMapCells_count m hne hnd,
    fun n c h => gridCellName_of_mem m hnd h, rfl⟩
  rw [renderMapCells, if_neg (by simp [List.isEmpty_iff, hne])]
  rw [List.length_map, gridPositions_length]

/-- Claim C5 witness: the amended grid semantics evaluated on the
two-location map {"A": (0,0), "B": (1,0)} — two cells, both labelled,
cell (1,0) labelled "B". -/
theorem renderMap_grid_semantics_witness :
    (renderMapCells [("A", (0, 0)), ("B", (1, 0))]).length = 2 ∧
    (renderMapCells [("A", (0, 0)), ("B", (1, 0))]).countP (fun o => o.isSome) = 2 ∧
    gridCellName [("A", (0, 0)), ("B", (1, 0))] (1, 0) = some "B" := by
  have h := renderMap_grid_semantics [("A", (0, 0)), ("B", (1, 0))]
    (by decide) (by decide)
  refine ⟨?_, ?_, h.2.2.1 "B" (1, 0) (by decide)⟩
  · rw [h.1]
    rfl
  · rw [h.2.1]
    rfl

/-- Lookup after appending one binding is determined the same way on two
lists that already agree at the key. -/
theorem alookup_append_same {α β : Type} [DecidableEq α] {l1 l2 : List (α × β)}
    (p : α × β) (k : α) (h : alookup l1 k = alookup l2 k) :
    alookup (l1 ++ [p]) k = alookup (l2 ++ [p]) k := by
  cases h1 : alookup l1 k with
  | some v =>
    have h2 : alookup l2 k = some v := by rw [← h]; exact h1
    rw [alookup_append_of_some h1, alookup_append_of_some h2]
  | none =>
    have h2 : alookup l2 k = none := by rw [← h]; exact h1
    rw [alookup_append_of_none h1, alookup_append_of_none h2]

/-- Characters whose location does not resolve are no-ops of the loop:
folding over the roster equals folding over its resolvable sublist. -/
theorem uapFold_filter_resolvable (m : WorldMap) (cs : List Character) (g : Option Nat)
    (l : List Character) (acc : UAPAcc) :
    List.foldl (uapStep m cs g) acc l =
      List.foldl (uapStep m cs g) acc
        (l.filter (fun c => (alookup m c.location).isSome)) := by
  induction l generalizing acc with
  | nil => rfl
  | cons c rest ih =>
    rw [List.foldl_cons, List.filter_cons]
    by_cases hc : (alookup m c.location).isSome = true
    · rw [if_pos hc, List.foldl_cons]
      exact ih _
    · rw [if_neg hc]
      have hstep : uapStep m cs g acc c = acc := by
        cases hml : alookup m c.location with
        | none => simp [uapStep, hml]
        | some xy => rw [hml] at hc; simp at hc
      rw [hstep]
      exact ih acc

/-- The co-location group of a resolvable character is unchanged by
restricting the roster to resolvable characters: everyone at the same
location name shares its resolvability. -/
theorem filter_location_resolvable (m : WorldMap) (cs : List Character) (c : Character)
    (hc : (alookup m c.location).isSome = true) :
    (cs.filter (fun x => (alookup m x.location).isSome)).filter
        (fun d => d.location == c.location) =
      cs.filter (fun d => d.location == c.location) := by
  rw [List.filter_filter]
  apply List.filter_congr
  intro d hd
  by_cases hdc : (d.location == c.location) = true
  · have hloc : d.location = c.location := by simpa using hdc
    rw [hloc]
    simp [hc]
  · simp only [Bool.not_eq_true] at hdc
    simp [hdc]

/-- The computed position of a resolvable character is unchanged by
restricting the roster to resolvable characters. -/
theorem agentPosition_filter_resolvable (m : WorldMap) (cs : List Character)
    (g : Option Nat) (c : Character) (xy : Nat × Nat)
    (hc : alookup m c.location = some xy) :
    agentPosition m (cs.filter (fun x => (alookup m x.location).isSome)) g c xy =
      agentPosition m cs g c xy := by
  simp only [agentPosition]
  rw [filter_location_resolvable m cs c (by simp [hc])]

/-- Projections of one loop iteration in the reuse branch. -/
theorem uapStep_reuse_proj {m : WorldMap} {cs : List Character} {g : Option Nat}
    {acc : UAPAcc} {c : Character} {el : Nat} {xy : Nat × Nat}
    (hxy : alookup m c.location = some xy)
    (hreg : alookup acc.rs.registry c.name = some el) :
    (uapStep m cs g acc c).rs.registry = acc.rs.registry ∧
    (uapStep m cs g acc c).rs.nextId = acc.rs.nextId ∧
    (uapStep m cs g acc c).trace = acc.trace ++
      [⟨c.name, el, (agentPosition m cs g c xy).1, (agentPosition m cs g c xy).2⟩] := by
  by_cases hat : el ∈ acc.rs.attached <;>
    exact ⟨by simp [uapStep, hxy, hreg, hat], by simp [uapStep, hxy, hreg, hat],
      by simp [uapStep, hxy, hreg, hat]⟩

/-- Projections of one loop iteration in the create branch. -/
theorem uapStep_create_proj {m : WorldMap} {cs : List Character} {g : Option Nat}
    {acc : UAPAcc} {c : Character} {xy : Nat × Nat}
    (hxy : alookup m c.location = some xy)
    (hreg : alookup acc.rs.registry c.name = none) :
    (uapStep m cs g acc c).rs.registry = acc.rs.registry ++ [(c.name, acc.rs.nextId)] ∧
    (uapStep m cs g acc c).rs.nextId = acc.rs.nextId + 1 ∧
    (uapStep m cs g acc c).trace = acc.trace ++
      [⟨c.name, acc.rs.nextId, (agentPosition m cs g c xy).1,
        (agentPosition m cs g c xy).2⟩] :=
  ⟨by simp [uapStep, hxy, hreg], by simp [uapStep, hxy, hreg], by simp [uapStep, hxy, hreg]⟩

/-- Relational invariant of the loop: folding the full-roster step and
the filtered-roster step over the same resolvable characters preserves
equal traces, equal allocation counters, and registry-lookup agreement on
a name set covering the folded characters. -/
theorem uapFold_agree (m : WorldMap) (cs : List Character) (g : Option Nat)
    (N : List String) (l : List Character) (accF accG : UAPAcc)
    (hres : ∀ c ∈ l, (alookup m c.location).isSome = true)
    (hN : ∀ c ∈ l, c.name ∈ N)
    (hagree : ∀ n ∈ N, alookup accF.rs.registry n = alookup accG.rs.registry n)
    (hnid : accF.rs.nextId = accG.rs.nextId)
    (htr : accF.trace = accG.trace) :
    (List.foldl (uapStep m cs g) accF l).trace =
      (List.foldl (uapStep m (cs.filter (fun x => (alookup m x.location).isSome)) g)
        accG l).trace ∧
    (List.foldl (uapStep m cs g) accF l).rs.nextId =
      (List.foldl (uapStep m (cs.filter (fun x => (alookup m x.location).isSome)) g)
        accG l).rs.nextId ∧
    ∀ n ∈ N, alookup (List.foldl (uapStep m cs g) accF l).rs.registry n =
      alookup (List.foldl (uapStep m (cs.filter (fun x => (alookup m x.location).isSome)) g)
        accG l).rs.registry n := by
  induction l generalizing accF accG with
  | nil => exact ⟨htr, hnid, hagree⟩
  | cons c rest ih =>
    have hcres := hres c (List.mem_cons_self c rest)
    obtain ⟨xy, hxy⟩ := Option.isSome_iff_exists.mp hcres
    have hcname := hN c (List.mem_cons_self c rest)
    have hposeq : agentPosition m (cs.filter (fun x => (alookup m x.location).isSome)) g c xy =
        agentPosition m cs g c xy :=
      agentPosition_filter_resolvable m cs g c xy hxy
    rw [List.foldl_cons, List.foldl_cons]
    have hregFG := hagree c.name hcname
    cases hreg : alookup accF.rs.registry c.name with
    | none =>
      have hregG : alookup accG.rs.registry c.name = none := by rw [← hregFG]; exact hreg
      obtain ⟨e1F, e2F, e3F⟩ := @uapStep_create_proj m cs g accF c xy hxy hreg
      obtain ⟨e1G, e2G, e3G⟩ :=
        @uapStep_create_proj m (cs.filter (fun x => (alookup m x.location).isSome))
          g accG c xy hxy hregG
      apply ih
      · intro d hd
        exact hres d (List.mem_cons_of_mem _ hd)
      · intro d hd
        exact hN d (List.mem_cons_of_mem _ hd)
      · intro n hn
        rw [e1F, e1G, hnid]
        exact alookup_append_same _ n (hagree n hn)
      · rw [e2F, e2G, hnid]
      · rw [e3F, e3G, htr, hnid, hposeq]
    | some el =>
      have hregG : alookup accG.rs.registry c.name = some el := by rw [← hregFG]; exact hreg
      obtain ⟨e1F, e2F, e3F⟩ := @uapStep_reuse_proj m cs g accF c el xy hxy hreg
      obtain ⟨e1G, e2G, e3G⟩ :=
        @uapStep_reuse_proj m (cs.filter (fun x => (alookup m x.location).isSome))
          g accG c el xy hxy hregG
      apply ih
      · intro d hd
        exact hres d (List.mem_cons_of_mem _ hd)
      · intro d hd
        exact hN d (List.mem_cons_of_mem _ hd)
      · intro n hn
        rw [e1F, e1G]
        exact hagree n hn
      · rw [e2F, e2G, hnid]
      · rw [e3F, e3G, htr, hposeq]

/-- Claim C9 (confirmed): characters whose location name is absent from
the world map are skipped entirely — the position-assignment trace of a
poll equals that of the same poll with the unresolvable characters
removed from the roster, and every resolvable character's registry
binding is the same in both runs. The embedding is total, so no error is
raised. -/
theorem updateAgentPositions_skips_unresolved (m : WorldMap) (cs : List Character)
    (g : Option Nat) (rs : RenderState) :
    (updateAgentPositions m cs g rs).2 =
      (updateAgentPositions m (cs.filter (fun c => (alookup m c.location).isSome)) g rs).2 ∧
    (∀ c ∈ cs, (alookup m c.location).isSome = true →
      alookup (updateAgentPositions m cs g rs).1.registry c.name =
        alookup (updateAgentPositions m
          (cs.filter (fun c => (alookup m c.location).isSome)) g rs).1.registry c.name) := by
  have hsub : ∀ n ∈ (cs.filter (fun c => (alookup m c.location).isSome)).map
      (fun c => c.name), n ∈ cs.map (fun c => c.name) := by
    intro n hn
    obtain ⟨c, hc, hcn⟩ := List.mem_map.mp hn
    exact hcn ▸ List.mem_map_of_mem _ (List.mem_of_mem_filter hc)
  have hagree0 : ∀ n ∈ (cs.filter (fun c => (alookup m c.location).isSome)).map
      (fun c => c.name),
      alookup (rs.registry.filter (fun p => decide (p.1 ∈ cs.map (fun c => c.name)))) n =
      alookup (rs.registry.filter (fun p => decide (p.1 ∈
        (cs.filter (fun c => (alookup m c.location).isSome)).map (fun c => c.name)))) n := by
    intro n hn
    rw [alookup_filter_key (fun k => decide (k ∈ cs.map (fun c => c.name)))]
    rw [alookup_filter_key (fun k => decide (k ∈
      (cs.filter (fun c => (alookup m c.location).isSome)).map (fun c => c.name)))]
    rw [if_pos (decide_eq_true (hsub n hn)), if_pos (decide_eq_true hn)]
  have h := uapFold_agree m cs g
    ((cs.filter (fun c => (alookup m c.location).isSome)).map (fun c => c.name))
    (cs.filter (fun c => (alookup m c.location).isSome))
    ⟨{ registry := rs.registry.filter (fun p => decide (p.1 ∈ cs.map (fun c => c.name))),
       attached := rs.attached.filter (fun e => decide (e ∉
         (rs.registry.filter (fun p => decide (p.1 ∉ cs.map (fun c => c.name)))).map
           (fun p => p.2))),
       nextId := rs.nextId }, []⟩
    ⟨{ registry := rs.registry.filter (fun p => decide (p.1 ∈
         (cs.filter (fun c => (alookup m c.location).isSome)).map (fun c => c.name))),
       attached := rs.attached.filter (fun e => decide (e ∉
         (rs.registry.filter (fun p => decide (p.1 ∉
           (cs.filter (fun c => (alookup m c.location).isSome)).map
             (fun c => c.name)))).map (fun p => p.2))),
       nextId := rs.nextId }, []⟩
    (fun c hc => (List.mem_filter.mp hc).2)
    (fun c hc => List.mem_map_of_mem _ hc)
    hagree0 rfl rfl
  constructor
  · simp only [updateAgentPositions]
    rw [uapFold_filter_resolvable]
    exact h.1
  · intro c hc hcres
    simp only [updateAgentPositions]
    rw [uapFold_filter_resolvable]
    exact h.2.2 c.name (List.mem_map_of_mem _ (List.mem_filter.mpr ⟨hc, hcres⟩))

/-- Claim C9 witness: a roster with "Ghost" at an unknown location and
"A" at a known one — the traces with and without "Ghost" coincide and
"A" keeps the same binding in both runs. -/
theorem updateAgentPositions_skips_unresolved_witness :
    (updateAgentPositions [("Home", (0, 0))]
      [⟨"Ghost", "Nowhere", none⟩, ⟨"A", "Home", none⟩] (some 0) ⟨[], [], 0⟩).2 =
      (updateAgentPositions [("Home", (0, 0))]
        ([⟨"Ghost", "Nowhere", none⟩, ⟨"A", "Home", none⟩].filter
          (fun c => (alookup [("Home", (0, 0))] c.location).isSome)) (some 0)
        ⟨[], [], 0⟩).2 ∧
    alookup (updateAgentPositions [("Home", (0, 0))]
      [⟨"Ghost", "Nowhere", none⟩, ⟨"A", "Home", none⟩] (some 0) ⟨[], [], 0⟩).1.registry
      "A" =
      alookup (updateAgentPositions [("Home", (0, 0))]
        ([⟨"Ghost", "Nowhere", none⟩, ⟨"A", "Home", none⟩].filter
          (fun c => (alookup [("Home", (0, 0))] c.location).isSome)) (some 0)
        ⟨[], [], 0⟩).1.registry "A" := by
  have h := updateAgentPositions_skips_unresolved [("Home", (0, 0))]
    [⟨"Ghost", "Nowhere", none⟩, ⟨"A", "Home", none⟩] (some 0) ⟨[], [], 0⟩
  exact ⟨h.1, h.2 ⟨"A", "Home", none⟩ (by decide) (by decide)⟩

/-- Claim C1 witness: the amended reset semantics evaluated on a concrete
reset — log cleared, displayed turn 0, and the surviving binding ("A")
is a name of the freshly fetched roster. -/
theorem resetSimulation_clears_log_sets_turn_witness :
    (resetSimulation true (some resetSnapshot) initialUIState).eventLogView = [] ∧
    (resetSimulation true (some resetSnapshot) initialUIState).turnDisplay = 0 ∧
    ("A" : String) ∈ (resetSnapshot.characters.getD []).map (fun c => c.name) := by
  have h := resetSimulation_clears_log_sets_turn resetSnapshot initialUIState
  exact ⟨h.1, h.2.1, h.2.2 ("A", 0) (by decide)⟩
